import Mathlib

/-
Verification of the CBC rule-evaluation core of the blauwe_parser repository.

The development shallowly embeds the pieces of the code that the properties
below are about:
  * `run_cbc` from `src/cbc/cbc_core.py` (mapping preprocessing, sample-value
    coercion, the per-rule evaluation loop and the per-target scoring);
  * `get_best_source_for_target` from
    `src/pages/02_⚙️_Parameter_Configuration.py` (mapping resolution);
  * `get_combined_mappings`, `clean_value_string` and the value pipeline of
    `load_sample_wide` from `src/db/samples_store.py`.

Machine floats of the Python code are modelled by `ℚ` (every literal the
claims touch is exactly representable, and division only ever happens with a
positive denominator guard, exactly as in the code).  Pandas one-row frames
are modelled as association lists of column name to cell.
-/

namespace CBC

/-- A cell of the one-row wide sample frame, abstracted by what
`float(row[name]) if pd.notna(row[name]) else -1` does with it:
`num q` is any cell on which `float` succeeds with value `q` (a Python
number or a numeric string), `na` is a cell for which `pd.notna` is false
(NaN/None), and `bad` is any other cell, on which `float` raises and the
`except` arm runs. -/
inductive Cell where
  | num (q : ℚ)
  | na
  | bad
  deriving DecidableEq, Repr

/-- A one-row wide sample frame: association list of column name to cell,
in column order. -/
abbrev Row := List (String × Cell)

/-- A row of the EIGENSCHAP table (property vocabulary). -/
structure Eigenschap where
  eigID : Nat
  name : String
  deriving DecidableEq, Repr

/-- A row of the TARGET table (end-use scenario). -/
structure Target where
  targetID : Nat
  name : String
  deriving DecidableEq, Repr

/-- A row of the HEEFT table: one weighted range rule tying a target to a
property.  `Min`/`Max` are nullable in the database, hence `Option ℚ`. -/
structure Rule where
  targetID : Nat
  eigID : Nat
  weight : ℚ
  min? : Option ℚ
  max? : Option ℚ
  deriving DecidableEq, Repr

/-- The three reference tables `run_cbc` reads from the rules database. -/
structure RulesDB where
  target : List Target
  eigenschap : List Eigenschap
  heeft : List Rule
  deriving DecidableEq, Repr

/-- Coercion of one cell, embedding
`float(row[name]) if pd.notna(row[name]) else -1` wrapped in
`try ... except: val = -1`. -/
def coerceCell : Cell → ℚ
  | .num q => q
  | .na => -1
  | .bad => -1

/-- Value of column `name` in the row.  A unique same-named column is
coerced with `coerceCell`; an absent column is the missing sentinel `-1`
(the `else` branch of the `if name in sample_wide_df.columns` test), and
duplicated column names make `float(row[name])` raise on the returned
Series, which the `except` arm also turns into `-1`. -/
def colValue (cols : Row) (name : String) : ℚ :=
  match cols.filter (fun c => c.1 == name) with
  | [c] => coerceCell c.2
  | _ => -1

/-- The `sample` dict of `run_cbc`, keyed by `EigID`: built by a left fold
over the EIGENSCHAP rows, so a later row with the same `EigID` overwrites an
earlier one exactly as the Python dict assignment does; `sample.get(eig_id, -1)`
makes `-1` the default for an unknown id. -/
def buildSample (eigenschap : List Eigenschap) (cols : Row) : Nat → ℚ :=
  eigenschap.foldl
    (fun acc e => fun i => if i = e.eigID then colValue cols e.name else acc i)
    (fun _ => -1)

/-- The range test of the rule loop:
`(min_val is not None) and (max_val is not None) and (min_val <= s <= max_val)`. -/
def boundsOk : Option ℚ → Option ℚ → ℚ → Bool
  | some mn, some mx, s => decide (mn ≤ s) && decide (s ≤ mx)
  | _, _, _ => false

/-- One appended element of `pass_fail_matrix` (the presentational
`TargetName`/`EigName` columns, pure lookups for display, are elided). -/
structure RuleResult where
  targetID : Nat
  eigID : Nat
  sampleValue : ℚ
  min? : Option ℚ
  max? : Option ℚ
  weight : ℚ
  passed : Int
  deriving DecidableEq, Repr

/-- Accumulator state of the rule loop: the `target_scores` and `target_max`
dicts (as total functions, zero-initialised as in the code) and the
`pass_fail_matrix` list. -/
structure EngState where
  scores : Nat → ℚ
  maxes : Nat → ℚ
  details : List RuleResult

/-- Pointwise dict update `d[tid] += w`. -/
def addAt (f : Nat → ℚ) (k : Nat) (w : ℚ) : Nat → ℚ :=
  fun i => if i = k then f i + w else f i

/-- One COMPLETING iteration of the `for h in heeft` loop of `run_cbc`:
zero-weight rules are skipped wholesale (`continue`); a missing value
(`s == -1`) records `Passed = -1` without touching either accumulator;
otherwise the rule's weight joins `target_max`, and additionally joins
`target_scores` with `Passed = 1` when both bounds are present and satisfied,
else `Passed = 0`.  The dicts are represented as total functions, which is
exact for every iteration that completes; the `KeyError` Python raises when a
rule's `TargetID` is not a key of the dicts (initialised from the TARGET
table alone) is modelled by the wrapper `stepRuleE` below, which `run_cbc`
uses. -/
def stepRule (sample : Nat → ℚ) (st : EngState) (h : Rule) : EngState :=
  if h.weight = 0 then st
  else
    let s := sample h.eigID
    let passed : Int := if s = -1 then -1 else if boundsOk h.min? h.max? s then 1 else 0
    { scores := if s ≠ -1 ∧ boundsOk h.min? h.max? s then addAt st.scores h.targetID h.weight
                else st.scores
      maxes := if s ≠ -1 then addAt st.maxes h.targetID h.weight else st.maxes
      details := st.details ++
        [⟨h.targetID, h.eigID, s, h.min?, h.max?, h.weight, passed⟩] }

/-- Initial loop state: both dicts at `0.0`, no detail rows. -/
def initState : EngState := ⟨fun _ => 0, fun _ => 0, []⟩

/-- The value computed by the rule loop of `run_cbc` on an already-renamed
row when every iteration completes (see `engineFoldE` for the raising
variant the interpreter actually runs). -/
def engineFold (db : RulesDB) (cols : Row) : EngState :=
  db.heeft.foldl (stepRule (buildSample db.eigenschap cols)) initState

/-- The key set of the `target_scores`/`target_max` dicts: they are
initialised from the TARGET table only (`for t in target`), and the loop
never inserts new keys — `d[tid] += w` on any other `tid` raises. -/
def targetKeys (db : RulesDB) : List Nat :=
  db.target.map (fun t => t.targetID)

/-- One iteration of the rule loop with its raising behaviour: a rule with
non-zero weight and a non-missing value whose `TargetID` is not a dict key
raises `KeyError` — at `target_scores[tid] += weight` when the bounds test
passes, else at `target_max[tid] += weight` — before any detail row is
appended; every other iteration completes as `stepRule`. -/
def stepRuleE (keys : List Nat) (sample : Nat → ℚ) (st : EngState) (h : Rule) :
    Except String EngState :=
  if h.weight = 0 then .ok st
  else if sample h.eigID ≠ -1 ∧ ¬ keys.contains h.targetID then .error "KeyError"
  else .ok (stepRule sample st h)

/-- The whole rule loop of `run_cbc` on an already-renamed row, with the
`KeyError` propagation of the interpreter. -/
def engineFoldE (db : RulesDB) (cols : Row) : Except String EngState :=
  db.heeft.foldlM (stepRuleE (targetKeys db) (buildSample db.eigenschap cols)) initState

/-- Per-target score: `(target_scores[tid] / denom) if denom > 0 else 0.0`. -/
def targetScore (st : EngState) (tid : Nat) : ℚ :=
  if 0 < st.maxes tid then st.scores tid / st.maxes tid else 0

/-- The `results` dict of `run_cbc` in TARGET-table order, for a run whose
loop completes: one `(target name, suitability score)` entry per target
row. -/
def cbcResults (db : RulesDB) (cols : Row) : List (String × ℚ) :=
  db.target.map (fun t => (t.name, targetScore (engineFold db cols) t.targetID))

/-- The mapping preprocessing of `run_cbc` (step 0): when `custom_mappings`
is non-empty, every pre-existing column whose name occurs among the mapping
values is dropped, then columns named like a mapping key are renamed to that
key's value.  An empty mapping dict is falsy in Python, skipping the block. -/
def applyMappings (mappings : List (String × String)) (cols : Row) : Row :=
  if mappings = [] then cols
  else
    let newTargets := mappings.map (fun m => m.2)
    let afterDrop := cols.filter (fun c => !(newTargets.any (fun t => t == c.1)))
    afterDrop.map (fun c =>
      match mappings.find? (fun m => m.1 == c.1) with
      | some m => (m.2, c.2)
      | none => c)

/-- Label lookup `sample_wide_df.loc[0, name]`: a `KeyError` when the column
is absent, the (first) cell otherwise. -/
def getColCell (row : Row) (name : String) : Except String Cell :=
  match row.find? (fun c => c.1 == name) with
  | some c => .ok c.2
  | none => .error "KeyError"

/-- Everything `run_cbc` returns that the claims speak about: the score
entries, the identity cells attached to the one-row result frame, and the
per-rule detail rows (the `compact_matrix` pivot, a reshaping of the same
detail rows, is elided). -/
structure RunOutput where
  results : List (String × ℚ)
  sampleID : Cell
  dateProcessed : Cell
  details : List RuleResult
  deriving DecidableEq, Repr

/-- The `run_cbc` function of `src/cbc/cbc_core.py`.  `rows` is the list of
rows of `sample_wide_df`; `row = sample_wide_df.iloc[0]` raises on an empty
frame, the rule loop raises `KeyError` on a HEEFT row whose `TargetID` is
not a key of the score dicts (when its weight is non-zero and its value
non-missing), and the later `.loc[0, "SampleID"]` / `.loc[0, "DateProcessed"]`
lookups raise when the column is absent; each raise is an `Except.error`
arm, in the interpreter's order. -/
def run_cbc (rows : List Row) (db : RulesDB) (maps : List (String × String)) :
    Except String RunOutput :=
  match rows.map (applyMappings maps) with
  | [] => .error "single positional indexer is out-of-bounds"
  | row :: _ =>
    match engineFoldE db row with
    | .error e => .error e
    | .ok st =>
      match getColCell row "SampleID", getColCell row "DateProcessed" with
      | .ok sid, .ok dp =>
          .ok ⟨db.target.map (fun t => (t.name, targetScore st t.targetID)), sid, dp, st.details⟩
      | .error e, _ => .error e
      | _, .error e => .error e

/-!  Mapping resolution (`src/pages/02_⚙️_Parameter_Configuration.py`) and
the mapping stores (`src/db/samples_store.py`).  Python dicts with unique
keys are modelled as association lists in insertion order. -/

/-- The function `get_best_source_for_target(target_name, local_map,
global_map, available_set)`: the first local entry whose target equals the
requested name wins with origin `"Manual"`; otherwise the global candidates
for the name are filtered to sources present in the sample and the first
survivor is returned with origin `"Global"`; else `(None, "None")`. -/
def get_best_source_for_target (targetName : String)
    (localMap globalMap : List (String × String)) (available : List String) :
    Option String × String :=
  match localMap.find? (fun p => p.2 == targetName) with
  | some p => (some p.1, "Manual")
  | none =>
    let candidates := (globalMap.filter (fun p => p.2 == targetName)).map (fun p => p.1)
    match candidates.filter (fun c => available.any (fun a => a == c)) with
    | c :: _ => (some c, "Global")
    | [] => (none, "None")

/-- The function `get_combined_mappings`: the Python dict merge
`{**global_map, **local_map}` — the global keys in order, each taking the
local value when the local dict binds the same source key, followed by the
local entries whose source key does not occur globally, in local order. -/
def get_combined_mappings (globalMap localMap : List (String × String)) :
    List (String × String) :=
  (globalMap.map (fun p =>
      match localMap.find? (fun q => q.1 == p.1) with
      | some q => (p.1, q.2)
      | none => p))
  ++ localMap.filter (fun q => !(globalMap.any (fun p => p.1 == q.1)))

/-- Dict lookup on an association list (first binding of the key wins, as in
a Python dict whose keys are unique). -/
def lookupKey (m : List (String × String)) (k : String) : Option String :=
  (m.find? (fun p => p.1 == k)).map (fun p => p.2)

/-!  Value cleaning and the wide-row reconstruction value pipeline
(`src/db/samples_store.py`). -/

/-- Python `str.strip()`: surrounding whitespace removed. -/
def trimChars (cs : List Char) : List Char :=
  ((cs.dropWhile Char.isWhitespace).reverse.dropWhile Char.isWhitespace).reverse

/-- The character-level effect of
`s.replace("<", "").replace(">", "").replace(",", ".")`: every `<` and `>`
is removed (wherever it occurs) and every comma becomes a period. -/
def cleanChars (cs : List Char) : List Char :=
  (cs.filter (fun c => !(c == '<') && !(c == '>'))).map
    (fun c => if c = ',' then '.' else c)

/-- The function `clean_value_string` on a string input:
`str(x).strip()`, then the `<`/`>` removal, then comma-to-period. -/
def clean_value_string (s : String) : String :=
  ⟨cleanChars (trimChars s.data)⟩

/-- Modelled from the spec: the cleaning step as §4.4 words it — strip only
the LEADING `<`/`>` characters, then convert commas; used solely to compare
the spec's wording with `clean_value_string` as implemented. -/
def clean_value_string_leading (s : String) : String :=
  ⟨((trimChars s.data).dropWhile (fun c => c == '<' || c == '>')).map
    (fun c => if c = ',' then '.' else c)⟩

/-- Digit run to a natural number. -/
def digitsVal (cs : List Char) : Nat :=
  cs.foldl (fun a c => 10 * a + (c.toNat - 48)) 0

/-- Unsigned decimal literal: digits, optionally with one decimal point
(`"7"`, `"7.1"`, `"7."`, `".5"`); anything else is not numeric. -/
def parseUnsigned (cs : List Char) : Option ℚ :=
  let ip := cs.takeWhile Char.isDigit
  match cs.dropWhile Char.isDigit with
  | [] => if ip.isEmpty then none else some (digitsVal ip)
  | c :: fp =>
      if c = '.' && fp.all Char.isDigit && !(ip.isEmpty && fp.isEmpty) then
        some ((digitsVal ip : ℚ) + (digitsVal fp : ℚ) / (10 : ℚ) ^ fp.length)
      else none

/-- Numeric coercion `pd.to_numeric(s, errors="coerce")` restricted to plain
optionally-signed decimal literals, the shape every value of this pipeline
takes after cleaning; `none` is the NaN outcome of a non-numeric string. -/
def parseDecimal (s : String) : Option ℚ :=
  match s.data with
  | [] => none
  | c :: rest =>
      if c = '-' then (parseUnsigned rest).map (fun q => -q)
      else if c = '+' then parseUnsigned rest
      else parseUnsigned (c :: rest)

/-- The value pipeline of `load_sample_wide`:
`df_long["Value"].apply(clean_value_string)` followed by
`pd.to_numeric(df_long["Value"], errors="coerce")`; a stored NULL stays
missing, a string is cleaned then coerced, with NaN (`none`) for anything
non-numeric. -/
def coerceStoredValue : Option String → Option ℚ
  | none => none
  | some s => parseDecimal (clean_value_string s)

/-- A row of `extracted_samples` for one sample, as fetched by
`load_sample_wide`: parameter, nullable unit, nullable textual value. -/
structure LongRow where
  parameter : String
  unit : Option String
  value : Option String
  deriving DecidableEq, Repr

/-- Column-key construction of `load_sample_wide`: parameter and unit are
stringified and stripped (NULL unit becomes the empty string), and the key
is `"{parameter} ({unit})"` when the unit is non-empty, else the bare
parameter. -/
def makeKey (r : LongRow) : String :=
  let p : String := ⟨trimChars r.parameter.data⟩
  let u : String := ⟨trimChars (r.unit.getD "").data⟩
  if u = "" then p else p ++ " (" ++ u ++ ")"

/-- Value of column `key` in the wide row reconstructed by
`load_sample_wide` from the long rows of one sample: the pivot
`pivot_table(index="SampleID", columns="Parameter", values="Value",
aggfunc='first')` groups the coerced values by key and keeps the FIRST
NON-NULL value of each group (pandas `first` aggregation skips nulls);
a group with no non-null value leaves the column missing (`none`), exactly
as the all-NaN column dropped by the pivot and possibly re-padded with NaN
from `required_cols`. -/
def pivotValue (rows : List LongRow) (key : String) : Option ℚ :=
  ((rows.map (fun r => (makeKey r, coerceStoredValue r.value))).filter
    (fun e => e.1 == key)).findSome? (fun e => e.2)

/-!  Predicates and sums used to state the scoring claims, worded from the
spec: a rule is APPLICABLE to a target for a sample when it belongs to the
target and its property value is non-missing; it is PASSED when it is
additionally within bounds.  The engine-side variants carry the extra
`Weight != 0` condition of the loop's `continue`. -/

/-- Sum of the weights of a list of rules. -/
def weightSum (l : List Rule) : ℚ := (l.map (fun h => h.weight)).sum

/-- Modelled from the spec: a rule of target `tid` whose property value is
non-missing for the sample. -/
def applicableB (sample : Nat → ℚ) (tid : Nat) (h : Rule) : Bool :=
  decide (h.targetID = tid) && !decide (sample h.eigID = -1)

/-- Modelled from the spec: an applicable rule whose bounds test succeeds. -/
def passesB (sample : Nat → ℚ) (tid : Nat) (h : Rule) : Bool :=
  applicableB sample tid h && boundsOk h.min? h.max? (sample h.eigID)

/-- The numerator the spec describes: sum of weights of the target's
passed rules. -/
def claimNumerator (sample : Nat → ℚ) (heeft : List Rule) (tid : Nat) : ℚ :=
  weightSum (heeft.filter (passesB sample tid))

/-- The denominator the spec describes: sum of weights of the target's
rules whose property value is non-missing. -/
def claimDenominator (sample : Nat → ℚ) (heeft : List Rule) (tid : Nat) : ℚ :=
  weightSum (heeft.filter (applicableB sample tid))

/-- Engine-side pass predicate: what makes the loop add `weight` to
`target_scores[tid]`. -/
def enginePassB (sample : Nat → ℚ) (tid : Nat) (h : Rule) : Bool :=
  passesB sample tid h && !decide (h.weight = 0)

/-- Engine-side applicability predicate: what makes the loop add `weight`
to `target_max[tid]`. -/
def engineApplB (sample : Nat → ℚ) (tid : Nat) (h : Rule) : Bool :=
  applicableB sample tid h && !decide (h.weight = 0)

/-- Column presence `name in sample_wide_df.columns` as a boolean. -/
def hasColB (row : Row) (name : String) : Bool :=
  row.any (fun c => c.1 == name)

/-!  Concrete data used by the witnesses and counterexamples below. -/

/-- Rules database for the C1 witness: target 1 has one satisfied weight-1
rule on the present property and one weight-2 rule on a missing property;
target 2 only has a rule on the missing property, so its denominator is 0. -/
def w1DB : RulesDB :=
  ⟨[⟨1, "Akkerbouw"⟩, ⟨2, "Natuur"⟩], [⟨1, "pH-waarde"⟩, ⟨2, "Lutum"⟩],
   [⟨1, 1, 1, some 5, some 7⟩, ⟨1, 2, 2, some 0, some 20⟩, ⟨2, 2, 3, some 0, some 5⟩]⟩

/-- Sample row for the C1 witness: `pH-waarde` present at 6, `Lutum` absent. -/
def w1Cols : Row := [("SampleID", .num 7), ("DateProcessed", .na), ("pH-waarde", .num 6)]

/-- Rules database for the C2 counterexample: a single ZERO-weight rule on a
property that is missing from the sample. -/
def c2DB : RulesDB :=
  ⟨[⟨1, "Akkerbouw"⟩], [⟨1, "pH-waarde"⟩], [⟨1, 1, 0, some 0, some 10⟩]⟩

/-- Sample row for the C2 counterexample: the `pH-waarde` column is absent. -/
def c2Cols : Row := [("SampleID", .num 1), ("DateProcessed", .na)]

/-- Missing-value rule used by the C2 witness. -/
def w2Rule : Rule := ⟨1, 1, 2, some 0, some 10⟩

/-- Sample map used by the C2 witness: every property missing. -/
def w2Sample : Nat → ℚ := fun _ => -1

/-- Unbounded rule used by the C3 witness: `Max` is NULL, weight 3. -/
def w3Rule : Rule := ⟨1, 1, 3, some 0, none⟩

/-- Sample map used by the C3 witness: property 1 present at 42. -/
def w3Sample : Nat → ℚ := fun i => if i = 1 then 42 else -1

/-- Global mapping store of the C4 scenario: `Lood (mg/kg)` feeds the
canonical name `Zware metalen`. -/
def c4Global : List (String × String) := [("Lood (mg/kg)", "Zware metalen")]

/-- Local mapping store of the C4 scenario: `Zink (mg/kg)` feeds the same
canonical name `Zware metalen`. -/
def c4Local : List (String × String) := [("Zink (mg/kg)", "Zware metalen")]

/-- Extracted parameter labels of the C4 scenario: both sources present. -/
def c4Avail : List String := ["Lood (mg/kg)", "Zink (mg/kg)"]

/-- Global mapping store of the C5 scenario: the only global source for
`pH-waarde` is `Zuurgraad (pH)`. -/
def c5Global : List (String × String) := [("Zuurgraad (pH)", "pH-waarde")]

/-- Extracted parameter labels of the C5 scenario: `Zuurgraad (pH)` is NOT
among them. -/
def c5Avail : List String := ["SampleID", "pH-waarde"]

/-- Rules database of the C5 scenario: one weight-1 rule `pH-waarde ∈ [6,7]`. -/
def c5DB : RulesDB :=
  ⟨[⟨1, "Akkerbouw"⟩], [⟨1, "pH-waarde"⟩], [⟨1, 1, 1, some 6, some 7⟩]⟩

/-- Sample row of the C5 scenario: `pH-waarde` was extracted directly and
holds the real value 6.5. -/
def c5Cols : Row :=
  [("SampleID", .num 1), ("DateProcessed", .na), ("pH-waarde", .num (13/2))]

/-- Mappings handed to the engine in the C6 scenario: the extracted column
`Zuurgraad (pH)` is mapped onto the canonical name `pH-waarde`. -/
def c6Maps : List (String × String) := [("Zuurgraad (pH)", "pH-waarde")]

/-- Sample row of the C6 scenario: the rename target `pH-waarde` already
exists AND holds real data (the value 3), not a placeholder. -/
def c6Cols : Row :=
  [("SampleID", .num 1), ("Zuurgraad (pH)", .num (13/2)), ("pH-waarde", .num 3)]

/-- Sample row for the C7 witness: its property cell is malformed (a value
`float` raises on). -/
def w7Row : Row := [("SampleID", .num 1), ("DateProcessed", .na), ("pH-waarde", .bad)]

/-- Sample frame for the C7 witness. -/
def w7Rows : List Row := [w7Row]

/-- Rules database for the C7 witness. -/
def w7DB : RulesDB :=
  ⟨[⟨1, "Akkerbouw"⟩], [⟨1, "pH-waarde"⟩], [⟨1, 1, 1, some 5, some 7⟩]⟩

/-- Structurally INVALID rules database for the C7 witness: its single
HEEFT row references `TargetID = 1`, but the TARGET table is empty, so the
score dicts have no key 1. -/
def w7BadDB : RulesDB :=
  ⟨[], [⟨1, "pH-waarde"⟩], [⟨1, 1, 1, some 0, some 10⟩]⟩

/-- Sample row for the C7 witness error branch: `pH-waarde` is present and
numeric, so the loop reaches the dict update and raises. -/
def w7BadRow : Row := [("SampleID", .num 1), ("DateProcessed", .na), ("pH-waarde", .num 6)]

/-- Long rows of the C9 counterexample: two rows collide on the key
`Lood (mg/kg)`; the FIRST one's value is non-numeric (so it coerces to
NaN) and the second one's value is `5`. -/
def c9Rows : List LongRow :=
  [⟨"Lood", some "mg/kg", some "abc"⟩, ⟨"Lood", some "mg/kg", some "5"⟩]

/-- C9 witness long rows, prefix: one colliding row whose stored value is
NULL (coerces to missing). -/
def w9Pre : List LongRow := [⟨"pH-waarde", none, none⟩]

/-- C9 witness long rows, middle: the first colliding row whose value
coerces to a number (`"7,5"`, i.e. 7.5). -/
def w9Mid : LongRow := ⟨"pH-waarde", none, some "7,5"⟩

/-- C9 witness long rows, suffix: a later colliding numeric row. -/
def w9Post : List LongRow := [⟨"pH-waarde", none, some "9"⟩]

/-- Rules database of the C10 counterexample: one ZERO-weight rule on
property 1. -/
def c10DB : RulesDB :=
  ⟨[⟨1, "Akkerbouw"⟩], [⟨1, "X"⟩], [⟨1, 1, 0, some 0, some 5⟩]⟩

/-- Sample row of the C10 counterexample: the property column `X` is
present and its value coerces to exactly -1. -/
def c10Cols : Row := [("SampleID", .num 1), ("X", .num (-1))]

end CBC

namespace CBC

theorem stepRule_scores (sample : Nat → ℚ) (st : EngState) (h : Rule) (tid : Nat) :
    (stepRule sample st h).scores tid =
      st.scores tid + (if enginePassB sample tid h then h.weight else 0) := by
  by_cases hw : h.weight = 0
  · simp [stepRule, hw, enginePassB]
  · by_cases hm : sample h.eigID = -1
    · simp [stepRule, hw, hm, enginePassB, passesB, applicableB]
    · by_cases hb : boundsOk h.min? h.max? (sample h.eigID) = true
      · by_cases ht : h.targetID = tid
        · simp [stepRule, hw, hm, hb, ht, enginePassB, passesB, applicableB, addAt]
        · simp [stepRule, hw, hm, hb, ht, enginePassB, passesB, applicableB, addAt]
          exact fun hh => ht hh.symm
      · simp [stepRule, hw, hm, hb, enginePassB, passesB, applicableB]

theorem stepRule_maxes (sample : Nat → ℚ) (st : EngState) (h : Rule) (tid : Nat) :
    (stepRule sample st h).maxes tid =
      st.maxes tid + (if engineApplB sample tid h then h.weight else 0) := by
  by_cases hw : h.weight = 0
  · simp [stepRule, hw, engineApplB]
  · by_cases hm : sample h.eigID = -1
    · simp [stepRule, hw, hm, engineApplB, applicableB]
    · by_cases ht : h.targetID = tid
      · simp [stepRule, hw, hm, ht, engineApplB, applicableB, addAt]
      · simp [stepRule, hw, hm, ht, engineApplB, applicableB, addAt]
        exact fun hh => ht hh.symm

theorem stepRule_details (sample : Nat → ℚ) (st : EngState) (h : Rule) :
    (stepRule sample st h).details = st.details ++
      (if h.weight = 0 then []
       else [⟨h.targetID, h.eigID, sample h.eigID, h.min?, h.max?, h.weight,
              if sample h.eigID = -1 then -1
              else if boundsOk h.min? h.max? (sample h.eigID) then 1 else 0⟩]) := by
  by_cases hw : h.weight = 0 <;> simp [stepRule, hw]

theorem weightSum_cons (h : Rule) (l : List Rule) :
    weightSum (h :: l) = h.weight + weightSum l := by
  simp [weightSum]

theorem foldl_stepRule_scores (sample : Nat → ℚ) (l : List Rule) (st : EngState) (tid : Nat) :
    (l.foldl (stepRule sample) st).scores tid =
      st.scores tid + weightSum (l.filter (enginePassB sample tid)) := by
  induction l generalizing st with
  | nil => simp [weightSum]
  | cons h t ih =>
    simp only [List.foldl_cons, List.filter_cons]
    rw [ih, stepRule_scores]
    by_cases hp : enginePassB sample tid h = true
    · simp [hp, weightSum_cons, add_assoc]
    · simp [hp]

theorem foldl_stepRule_maxes (sample : Nat → ℚ) (l : List Rule) (st : EngState) (tid : Nat) :
    (l.foldl (stepRule sample) st).maxes tid =
      st.maxes tid + weightSum (l.filter (engineApplB sample tid)) := by
  induction l generalizing st with
  | nil => simp [weightSum]
  | cons h t ih =>
    simp only [List.foldl_cons, List.filter_cons]
    rw [ih, stepRule_maxes]
    by_cases hp : engineApplB sample tid h = true
    · simp [hp, weightSum_cons, add_assoc]
    · simp [hp]

theorem weightSum_filter_weight_ne_zero (l : List Rule) (p : Rule → Bool) :
    weightSum (l.filter (fun h => p h && !decide (h.weight = 0))) =
      weightSum (l.filter p) := by
  induction l with
  | nil => rfl
  | cons h t ih =>
    simp only [List.filter_cons]
    by_cases hp : p h = true
    · by_cases hw : h.weight = 0
      · simp [hp, hw, weightSum_cons, ih]
      · simp [hp, hw, weightSum_cons, ih]
    · simp [hp, ih]

theorem engineFold_scores (db : RulesDB) (cols : Row) (tid : Nat) :
    (engineFold db cols).scores tid =
      claimNumerator (buildSample db.eigenschap cols) db.heeft tid := by
  rw [engineFold, foldl_stepRule_scores]
  simp only [initState, zero_add, claimNumerator]
  rw [show enginePassB (buildSample db.eigenschap cols) tid =
        fun h => passesB (buildSample db.eigenschap cols) tid h && !decide (h.weight = 0)
      from rfl,
    weightSum_filter_weight_ne_zero]

theorem engineFold_maxes (db : RulesDB) (cols : Row) (tid : Nat) :
    (engineFold db cols).maxes tid =
      claimDenominator (buildSample db.eigenschap cols) db.heeft tid := by
  rw [engineFold, foldl_stepRule_maxes]
  simp only [initState, zero_add, claimDenominator]
  rw [show engineApplB (buildSample db.eigenschap cols) tid =
        fun h => applicableB (buildSample db.eigenschap cols) tid h && !decide (h.weight = 0)
      from rfl,
    weightSum_filter_weight_ne_zero]

end CBC

namespace CBC

/-- C1: for every target, `run_cbc` returns score = (sum of weights of its
passed rules) / (sum of weights of its rules whose property value was
non-missing), and when that denominator is 0 the score is exactly 0, never
undefined (`targetScore` is total on `ℚ`, so no NaN and no error can arise). -/
theorem run_cbc_score_is_passed_over_applicable (db : RulesDB) (cols : Row)
    (hw : ∀ h ∈ db.heeft, 0 ≤ h.weight) (t : Target) (ht : t ∈ db.target) :
    (t.name, targetScore (engineFold db cols) t.targetID) ∈ cbcResults db cols
  ∧ (claimDenominator (buildSample db.eigenschap cols) db.heeft t.targetID = 0 →
      targetScore (engineFold db cols) t.targetID = 0)
  ∧ (claimDenominator (buildSample db.eigenschap cols) db.heeft t.targetID ≠ 0 →
      targetScore (engineFold db cols) t.targetID =
        claimNumerator (buildSample db.eigenschap cols) db.heeft t.targetID /
          claimDenominator (buildSample db.eigenschap cols) db.heeft t.targetID) := by
  refine ⟨List.mem_map.mpr ⟨t, ht, rfl⟩, ?_, ?_⟩
  · intro hden
    rw [targetScore, engineFold_maxes, hden]
    simp
  · intro hden
    have hnonneg : 0 ≤ claimDenominator (buildSample db.eigenschap cols) db.heeft t.targetID := by
      apply List.sum_nonneg
      intro x hx
      obtain ⟨h, hh, rfl⟩ := List.mem_map.mp hx
      exact hw h (List.mem_filter.mp hh).1
    have hpos : 0 < claimDenominator (buildSample db.eigenschap cols) db.heeft t.targetID :=
      lt_of_le_of_ne hnonneg (Ne.symm hden)
    rw [targetScore, engineFold_maxes, engineFold_scores, if_pos hpos]

/-- C1 witness: the theorem applied to the concrete database `w1DB` and
sample `w1Cols` at target 1. -/
theorem run_cbc_score_is_passed_over_applicable_witness :
    (∀ h ∈ w1DB.heeft, 0 ≤ h.weight) ∧ (⟨1, "Akkerbouw"⟩ : Target) ∈ w1DB.target ∧
    ((("Akkerbouw", targetScore (engineFold w1DB w1Cols) 1) ∈ cbcResults w1DB w1Cols)
     ∧ (claimDenominator (buildSample w1DB.eigenschap w1Cols) w1DB.heeft 1 = 0 →
         targetScore (engineFold w1DB w1Cols) 1 = 0)
     ∧ (claimDenominator (buildSample w1DB.eigenschap w1Cols) w1DB.heeft 1 ≠ 0 →
         targetScore (engineFold w1DB w1Cols) 1 =
           claimNumerator (buildSample w1DB.eigenschap w1Cols) w1DB.heeft 1 /
             claimDenominator (buildSample w1DB.eigenschap w1Cols) w1DB.heeft 1)) := by
  have hw : ∀ h ∈ w1DB.heeft, 0 ≤ h.weight := by
    intro h hh
    simp only [w1DB, List.mem_cons, List.not_mem_nil, or_false] at hh
    rcases hh with rfl | rfl | rfl <;> norm_num
  have ht : (⟨1, "Akkerbouw"⟩ : Target) ∈ w1DB.target := by simp [w1DB]
  exact ⟨hw, ht, run_cbc_score_is_passed_over_applicable w1DB w1Cols hw ⟨1, "Akkerbouw"⟩ ht⟩

/-- C2 counterexample: the single rule of `c2DB` has weight 0 and its
property `pH-waarde` is missing from the sample `c2Cols`, yet `run_cbc`
records NO detail row at all for it (the loop `continue`s on zero weight),
contradicting the claim that every rule with a missing property value gets
a detail row with `Passed = -1` regardless of the weight. -/
theorem zero_weight_missing_rule_records_no_detail_row :
    buildSample c2DB.eigenschap c2Cols 1 = -1
  ∧ c2DB.heeft = [⟨1, 1, 0, some 0, some 10⟩]
  ∧ (engineFold c2DB c2Cols).details = [] := by
  refine ⟨?_, rfl, ?_⟩
  · simp [buildSample, c2DB, c2Cols, colValue]
  · simp [engineFold, c2DB, c2Cols, stepRule, initState]

/-- C2 (amended): for every rule with NON-ZERO weight whose property value
is missing, the loop records a detail row with `Passed = -1` and adds the
weight to neither `target_scores` nor `target_max`; zero-weight rules are
skipped wholesale and record nothing. -/
theorem missing_value_rule_excluded_and_flagged (sample : Nat → ℚ) (st : EngState)
    (h : Rule) (hw : h.weight ≠ 0) (hm : sample h.eigID = -1) :
    (stepRule sample st h).details =
      st.details ++ [⟨h.targetID, h.eigID, -1, h.min?, h.max?, h.weight, -1⟩]
  ∧ (stepRule sample st h).scores = st.scores
  ∧ (stepRule sample st h).maxes = st.maxes := by
  refine ⟨?_, ?_, ?_⟩ <;> simp [stepRule, hw, hm]

/-- C2 witness: the amended theorem applied to the weight-2 rule `w2Rule`
and the all-missing sample `w2Sample`, at the initial state. -/
theorem missing_value_rule_excluded_and_flagged_witness :
    w2Rule.weight ≠ 0 ∧ w2Sample w2Rule.eigID = -1 ∧
    ((stepRule w2Sample initState w2Rule).details =
      initState.details ++ [⟨w2Rule.targetID, w2Rule.eigID, -1, w2Rule.min?, w2Rule.max?, w2Rule.weight, -1⟩]
     ∧ (stepRule w2Sample initState w2Rule).scores = initState.scores
     ∧ (stepRule w2Sample initState w2Rule).maxes = initState.maxes) := by
  have hw : w2Rule.weight ≠ 0 := by norm_num [w2Rule]
  have hm : w2Sample w2Rule.eigID = -1 := rfl
  exact ⟨hw, hm, missing_value_rule_excluded_and_flagged w2Sample initState w2Rule hw hm⟩

/-- C3: a rule with non-zero weight, a non-missing sample value and an
absent `Min` or `Max` bound records `Passed = 0` while its weight is still
added to the target's denominator accumulator `target_max` (and not to the
numerator `target_scores`). -/
theorem unbounded_rule_fails_but_counts_in_denominator (sample : Nat → ℚ)
    (st : EngState) (h : Rule) (hw : h.weight ≠ 0)
    (hs : sample h.eigID ≠ -1) (hb : h.min? = none ∨ h.max? = none) :
    (stepRule sample st h).details =
      st.details ++ [⟨h.targetID, h.eigID, sample h.eigID, h.min?, h.max?, h.weight, 0⟩]
  ∧ (stepRule sample st h).maxes h.targetID = st.maxes h.targetID + h.weight
  ∧ (stepRule sample st h).scores = st.scores := by
  have hbf : boundsOk h.min? h.max? (sample h.eigID) = false := by
    rcases hb with hb | hb
    · rw [hb]; cases h.max? <;> rfl
    · rw [hb]; cases h.min? <;> rfl
  refine ⟨?_, ?_, ?_⟩ <;> simp [stepRule, hw, hs, hbf, addAt]

/-- C3 witness: the theorem applied to the max-less weight-3 rule `w3Rule`
against the sample `w3Sample` holding 42 for its property. -/
theorem unbounded_rule_fails_but_counts_in_denominator_witness :
    w3Rule.weight ≠ 0 ∧ w3Sample w3Rule.eigID ≠ -1 ∧ (w3Rule.min? = none ∨ w3Rule.max? = none) ∧
    ((stepRule w3Sample initState w3Rule).details =
      initState.details ++ [⟨w3Rule.targetID, w3Rule.eigID, w3Sample w3Rule.eigID, w3Rule.min?, w3Rule.max?, w3Rule.weight, 0⟩]
     ∧ (stepRule w3Sample initState w3Rule).maxes w3Rule.targetID =
         initState.maxes w3Rule.targetID + w3Rule.weight
     ∧ (stepRule w3Sample initState w3Rule).scores = initState.scores) := by
  have hw : w3Rule.weight ≠ 0 := by norm_num [w3Rule]
  have hs : w3Sample w3Rule.eigID ≠ -1 := by norm_num [w3Sample, w3Rule]
  have hb : w3Rule.min? = none ∨ w3Rule.max? = none := Or.inr rfl
  exact ⟨hw, hs, hb, unbounded_rule_fails_but_counts_in_denominator w3Sample initState w3Rule hw hs hb⟩

end CBC

namespace CBC

theorem colValue_replace (pre post : Row) (nm : String) (c₁ c₂ : Cell)
    (hc : coerceCell c₁ = coerceCell c₂) (name : String) :
    colValue (pre ++ (nm, c₁) :: post) name = colValue (pre ++ (nm, c₂) :: post) name := by
  unfold colValue
  rw [List.filter_append, List.filter_append, List.filter_cons, List.filter_cons]
  by_cases hk : ((nm, c₁).1 == name) = true
  · have hk₂ : ((nm, c₂).1 == name) = true := hk
    simp only [hk, hk₂, if_pos]
    cases hpre : pre.filter (fun c => c.1 == name) with
    | nil =>
      cases hpost : post.filter (fun c => c.1 == name) with
      | nil => simp [hc]
      | cons y ys => simp
    | cons y ys =>
      cases ys with
      | nil => simp
      | cons z zs => simp
  · have hk₂ : ¬ ((nm, c₂).1 == name) = true := hk
    simp only [hk, hk₂, if_neg, Bool.false_eq_true, not_false_eq_true]

theorem buildSample_ext (eigen : List Eigenschap) (cols₁ cols₂ : Row)
    (h : ∀ name, colValue cols₁ name = colValue cols₂ name) :
    buildSample eigen cols₁ = buildSample eigen cols₂ := by
  unfold buildSample
  have key : ∀ (l : List Eigenschap) (a : Nat → ℚ),
      l.foldl (fun acc e => fun i => if i = e.eigID then colValue cols₁ e.name else acc i) a =
        l.foldl (fun acc e => fun i => if i = e.eigID then colValue cols₂ e.name else acc i) a := by
    intro l
    induction l with
    | nil => intro a; rfl
    | cons e t ih =>
      intro a
      simp only [List.foldl_cons]
      rw [show (fun i => if i = e.eigID then colValue cols₁ e.name else a i) =
            (fun i => if i = e.eigID then colValue cols₂ e.name else a i) from
          funext fun i => by rw [h]]
      exact ih _
  exact key _ _

/-- C10 counterexample: the column `X` of `c10Cols` is present with a value
coercing to exactly -1, and `c10DB` has one rule on it, yet that rule has
weight 0, so `run_cbc` records NO detail row at all — contradicting the
claim that every rule on such a property records `Passed = -1`. -/
theorem zero_weight_rule_on_minus_one_value_records_nothing :
    ("X", Cell.num (-1)) ∈ c10Cols
  ∧ colValue c10Cols "X" = -1
  ∧ c10DB.heeft = [⟨1, 1, 0, some 0, some 5⟩]
  ∧ (engineFold c10DB c10Cols).details = [] := by
  refine ⟨by simp [c10Cols], ?_, rfl, ?_⟩
  · simp [c10Cols, colValue, coerceCell]
  · simp [engineFold, c10DB, c10Cols, stepRule, initState]

/-- C10 (amended): a property column holding the value -1 is treated
exactly as a missing one: the coerced value is the sentinel -1, and both the
score table and the detail rows of `run_cbc` are identical to those computed
for the same sample with that cell replaced by NaN; every NON-ZERO-weight
rule on the property records `Passed = -1` and is excluded from numerator
and denominator (zero-weight rules record nothing in both cases). -/
theorem minus_one_value_indistinguishable_from_missing (db : RulesDB)
    (pre post : Row) (nm : String) (hpre : ∀ c ∈ pre, c.1 ≠ nm) :
    colValue (pre ++ (nm, Cell.num (-1)) :: post) nm =
      colValue (pre ++ (nm, Cell.na) :: post) nm
  ∧ buildSample db.eigenschap (pre ++ (nm, Cell.num (-1)) :: post) =
      buildSample db.eigenschap (pre ++ (nm, Cell.na) :: post)
  ∧ cbcResults db (pre ++ (nm, Cell.num (-1)) :: post) =
      cbcResults db (pre ++ (nm, Cell.na) :: post)
  ∧ (engineFold db (pre ++ (nm, Cell.num (-1)) :: post)).details =
      (engineFold db (pre ++ (nm, Cell.na) :: post)).details
  ∧ ((∀ p ∈ post, p.1 ≠ nm) →
      colValue (pre ++ (nm, Cell.num (-1)) :: post) nm = -1)
  ∧ (∀ (sample : Nat → ℚ) (st : EngState) (h : Rule), h.weight ≠ 0 → sample h.eigID = -1 →
      (stepRule sample st h).details =
        st.details ++ [⟨h.targetID, h.eigID, -1, h.min?, h.max?, h.weight, -1⟩]
      ∧ (stepRule sample st h).scores = st.scores
      ∧ (stepRule sample st h).maxes = st.maxes) := by
  have hcol : ∀ name, colValue (pre ++ (nm, Cell.num (-1)) :: post) name =
      colValue (pre ++ (nm, Cell.na) :: post) name :=
    colValue_replace pre post nm (Cell.num (-1)) Cell.na rfl
  have hbs : buildSample db.eigenschap (pre ++ (nm, Cell.num (-1)) :: post) =
      buildSample db.eigenschap (pre ++ (nm, Cell.na) :: post) :=
    buildSample_ext _ _ _ hcol
  have hef : engineFold db (pre ++ (nm, Cell.num (-1)) :: post) =
      engineFold db (pre ++ (nm, Cell.na) :: post) := by
    unfold engineFold
    rw [hbs]
  refine ⟨hcol nm, hbs, ?_, by rw [hef], ?_, ?_⟩
  · unfold cbcResults
    rw [hef]
  · intro hpost
    unfold colValue
    rw [List.filter_append, List.filter_cons]
    have h₁ : pre.filter (fun c => c.1 == nm) = [] :=
      List.filter_eq_nil_iff.mpr (by
        intro a ha
        simpa using hpre a ha)
    have h₂ : post.filter (fun c => c.1 == nm) = [] :=
      List.filter_eq_nil_iff.mpr (by
        intro a ha
        simpa using hpost a ha)
    simp [h₁, h₂, coerceCell]
  · intro sample st h hw hm
    refine ⟨?_, ?_, ?_⟩ <;> simp [stepRule, hw, hm]

/-- C10 witness: the amended theorem applied to the sample whose `X` column
holds -1 (the `c10Cols` split as prefix `[("SampleID", num 1)]`, cell
`("X", num (-1))`, empty suffix), with the rules database `w7DB`. -/
theorem minus_one_value_indistinguishable_from_missing_witness :
    (∀ c ∈ [(("SampleID" : String), Cell.num 1)], c.1 ≠ "X") ∧
    (colValue ([(("SampleID" : String), Cell.num 1)] ++ ("X", Cell.num (-1)) :: []) "X" =
       colValue ([(("SampleID" : String), Cell.num 1)] ++ ("X", Cell.na) :: []) "X"
     ∧ buildSample w7DB.eigenschap ([(("SampleID" : String), Cell.num 1)] ++ ("X", Cell.num (-1)) :: []) =
         buildSample w7DB.eigenschap ([(("SampleID" : String), Cell.num 1)] ++ ("X", Cell.na) :: [])
     ∧ cbcResults w7DB ([(("SampleID" : String), Cell.num 1)] ++ ("X", Cell.num (-1)) :: []) =
         cbcResults w7DB ([(("SampleID" : String), Cell.num 1)] ++ ("X", Cell.na) :: [])
     ∧ (engineFold w7DB ([(("SampleID" : String), Cell.num 1)] ++ ("X", Cell.num (-1)) :: [])).details =
         (engineFold w7DB ([(("SampleID" : String), Cell.num 1)] ++ ("X", Cell.na) :: [])).details
     ∧ ((∀ p ∈ ([] : Row), p.1 ≠ "X") →
         colValue ([(("SampleID" : String), Cell.num 1)] ++ ("X", Cell.num (-1)) :: []) "X" = -1)
     ∧ (∀ (sample : Nat → ℚ) (st : EngState) (h : Rule), h.weight ≠ 0 → sample h.eigID = -1 →
         (stepRule sample st h).details =
           st.details ++ [⟨h.targetID, h.eigID, -1, h.min?, h.max?, h.weight, -1⟩]
         ∧ (stepRule sample st h).scores = st.scores
         ∧ (stepRule sample st h).maxes = st.maxes)) := by
  have hpre : ∀ c ∈ [(("SampleID" : String), Cell.num 1)], c.1 ≠ "X" := by
    intro c hc
    simp only [List.mem_singleton] at hc
    subst hc
    decide
  exact ⟨hpre, minus_one_value_indistinguishable_from_missing w7DB _ _ "X" hpre⟩

end CBC

namespace CBC

theorem stepRuleE_ok (keys : List Nat) (sample : Nat → ℚ) (st : EngState) (h : Rule)
    (hok : h.weight = 0 ∨ sample h.eigID = -1 ∨ keys.contains h.targetID = true) :
    stepRuleE keys sample st h = .ok (stepRule sample st h) := by
  unfold stepRuleE
  by_cases hw : h.weight = 0
  · rw [if_pos hw]
    unfold stepRule
    rw [if_pos hw]
  · have hcond : ¬ (sample h.eigID ≠ -1 ∧ ¬ keys.contains h.targetID = true) := by
      rcases hok with hok | hok | hok
      · exact absurd hok hw
      · exact fun hc => hc.1 hok
      · exact fun hc => hc.2 hok
    rw [if_neg hw, if_neg hcond]

theorem engineFoldE_ok (db : RulesDB) (cols : Row)
    (hok : ∀ h ∈ db.heeft, h.weight = 0 ∨ buildSample db.eigenschap cols h.eigID = -1 ∨
      (targetKeys db).contains h.targetID = true) :
    engineFoldE db cols = .ok (engineFold db cols) := by
  unfold engineFoldE engineFold
  have key : ∀ (l : List Rule) (st : EngState),
      (∀ h ∈ l, h.weight = 0 ∨ buildSample db.eigenschap cols h.eigID = -1 ∨
        (targetKeys db).contains h.targetID = true) →
      l.foldlM (stepRuleE (targetKeys db) (buildSample db.eigenschap cols)) st =
        .ok (l.foldl (stepRule (buildSample db.eigenschap cols)) st) := by
    intro l
    induction l with
    | nil => intro st _; rfl
    | cons h t ih =>
      intro st hl
      rw [List.foldlM_cons, stepRuleE_ok _ _ _ _ (hl h (List.mem_cons_self h t))]
      simp only [List.foldl_cons]
      exact ih _ (fun h' hh' => hl h' (List.mem_cons_of_mem h hh'))
  exact key db.heeft initState hok

theorem engineFoldE_error (db : RulesDB) (cols : Row)
    (hbad : ∃ h ∈ db.heeft, h.weight ≠ 0 ∧ buildSample db.eigenschap cols h.eigID ≠ -1 ∧
      ¬ (targetKeys db).contains h.targetID = true) :
    engineFoldE db cols = .error "KeyError" := by
  unfold engineFoldE
  have key : ∀ (l : List Rule) (st : EngState),
      (∃ h ∈ l, h.weight ≠ 0 ∧ buildSample db.eigenschap cols h.eigID ≠ -1 ∧
        ¬ (targetKeys db).contains h.targetID = true) →
      l.foldlM (stepRuleE (targetKeys db) (buildSample db.eigenschap cols)) st =
        .error "KeyError" := by
    intro l
    induction l with
    | nil =>
      intro st hexists
      exact absurd hexists (by simp)
    | cons h t ih =>
      intro st hl
      rw [List.foldlM_cons]
      by_cases hcur : h.weight ≠ 0 ∧ buildSample db.eigenschap cols h.eigID ≠ -1 ∧
          ¬ (targetKeys db).contains h.targetID = true
      · rw [show stepRuleE (targetKeys db) (buildSample db.eigenschap cols) st h =
            .error "KeyError" from by
          unfold stepRuleE
          rw [if_neg hcur.1, if_pos ⟨hcur.2.1, hcur.2.2⟩]]
        rfl
      · rcases hl with ⟨h', hh', hprop⟩
        have hht : h' ∈ t := by
          rcases List.mem_cons.mp hh' with heq | hmem
          · exact absurd (heq ▸ hprop) hcur
          · exact hmem
        by_cases hw : h.weight = 0
        · rw [show stepRuleE (targetKeys db) (buildSample db.eigenschap cols) st h = .ok st
            from by unfold stepRuleE; rw [if_pos hw]]
          exact ih _ ⟨h', hht, hprop⟩
        · have hcond : ¬ (buildSample db.eigenschap cols h.eigID ≠ -1 ∧
              ¬ (targetKeys db).contains h.targetID = true) :=
            fun hc => hcur ⟨hw, hc.1, hc.2⟩
          rw [show stepRuleE (targetKeys db) (buildSample db.eigenschap cols) st h =
              .ok (stepRule (buildSample db.eigenschap cols) st h) from by
            unfold stepRuleE
            rw [if_neg hw, if_neg hcond]]
          exact ih _ ⟨h', hht, hprop⟩
  exact key db.heeft initState hbad

/-- C7: `run_cbc` raises only for structurally invalid input: an empty
sample frame (the `iloc[0]`), a HEEFT row referencing a `TargetID` absent
from the TARGET table while carrying non-zero weight and a non-missing
value (the `KeyError` at the dict update of the loop), or an absent
`SampleID`/`DateProcessed` column (the `loc` lookups).  For every non-empty
frame with the two identity columns and a rules database whose HEEFT rows
all reference existing targets, it returns a result whatever the property
cells hold — missing, NaN or malformed cells are absorbed by the coercion
sentinel and never raise; and when an orphaned HEEFT row is actually
reached, it errors with `KeyError`. -/
theorem run_cbc_raises_only_for_structural_errors (rows : List Row) (db : RulesDB)
    (maps : List (String × String)) :
    (rows = [] → run_cbc rows db maps = .error "single positional indexer is out-of-bounds")
  ∧ (∀ row rest, rows = row :: rest →
      (∀ h ∈ db.heeft, h.targetID ∈ targetKeys db) →
      hasColB (applyMappings maps row) "SampleID" = true →
      hasColB (applyMappings maps row) "DateProcessed" = true →
      ∃ out, run_cbc rows db maps = Except.ok out)
  ∧ (∀ row rest, rows = row :: rest →
      (∃ h ∈ db.heeft, h.weight ≠ 0 ∧
        buildSample db.eigenschap (applyMappings maps row) h.eigID ≠ -1 ∧
        ¬ (targetKeys db).contains h.targetID = true) →
      run_cbc rows db maps = .error "KeyError") := by
  refine ⟨?_, ?_, ?_⟩
  · intro h
    subst h
    rfl
  · intro row rest hr hfk hsid hdp
    subst hr
    obtain ⟨c₁, hc₁⟩ := Option.isSome_iff_exists.mp
      (List.find?_isSome.mpr (List.any_eq_true.mp hsid))
    obtain ⟨c₂, hc₂⟩ := Option.isSome_iff_exists.mp
      (List.find?_isSome.mpr (List.any_eq_true.mp hdp))
    have hfold : engineFoldE db (applyMappings maps row) =
        .ok (engineFold db (applyMappings maps row)) :=
      engineFoldE_ok db _ (fun h hh => Or.inr (Or.inr (by simpa using hfk h hh)))
    refine ⟨⟨db.target.map (fun t =>
        (t.name, targetScore (engineFold db (applyMappings maps row)) t.targetID)),
      c₁.2, c₂.2, (engineFold db (applyMappings maps row)).details⟩, ?_⟩
    simp only [run_cbc, List.map_cons, hfold, getColCell, hc₁, hc₂]
  · intro row rest hr hbad
    subst hr
    have hfold := engineFoldE_error db (applyMappings maps row) hbad
    simp only [run_cbc, List.map_cons, hfold]

/-- C7 witness: the theorem applied twice — to the malformed-cell sample
`w7Row` with the well-formed database `w7DB`, where `run_cbc` returns a
result, and to the numeric sample `w7BadRow` with the orphaned-rule
database `w7BadDB`, where it raises `KeyError`. -/
theorem run_cbc_raises_only_for_structural_errors_witness :
    (w7Rows = w7Row :: []
     ∧ (∀ h ∈ w7DB.heeft, h.targetID ∈ targetKeys w7DB)
     ∧ hasColB (applyMappings [] w7Row) "SampleID" = true
     ∧ hasColB (applyMappings [] w7Row) "DateProcessed" = true
     ∧ ∃ out, run_cbc w7Rows w7DB [] = Except.ok out)
  ∧ ([w7BadRow] = w7BadRow :: []
     ∧ (∃ h ∈ w7BadDB.heeft, h.weight ≠ 0 ∧
         buildSample w7BadDB.eigenschap (applyMappings [] w7BadRow) h.eigID ≠ -1 ∧
         ¬ (targetKeys w7BadDB).contains h.targetID = true)
     ∧ run_cbc [w7BadRow] w7BadDB [] = Except.error "KeyError") := by
  have hfk : ∀ h ∈ w7DB.heeft, h.targetID ∈ targetKeys w7DB := by decide
  have hbad : ∃ h ∈ w7BadDB.heeft, h.weight ≠ 0 ∧
      buildSample w7BadDB.eigenschap (applyMappings [] w7BadRow) h.eigID ≠ -1 ∧
      ¬ (targetKeys w7BadDB).contains h.targetID = true := by
    refine ⟨⟨1, 1, 1, some 0, some 10⟩, List.mem_singleton.mpr rfl, by norm_num, ?_, by decide⟩
    have hs : buildSample w7BadDB.eigenschap (applyMappings [] w7BadRow) 1 = 6 := by
      simp [buildSample, w7BadDB, w7BadRow, applyMappings, colValue, coerceCell]
    rw [show ((⟨1, 1, 1, some 0, some 10⟩ : Rule)).eigID = 1 from rfl, hs]
    norm_num
  exact ⟨⟨rfl, hfk, by decide, by decide,
      (run_cbc_raises_only_for_structural_errors w7Rows w7DB []).2.1 w7Row [] rfl hfk
        (by decide) (by decide)⟩,
    ⟨rfl, hbad,
      (run_cbc_raises_only_for_structural_errors [w7BadRow] w7BadDB []).2.2 w7BadRow [] rfl
        hbad⟩⟩

/-- C4 counterexample: with the local map sending `Zink (mg/kg)` to
`Zware metalen` and the global map sending `Lood (mg/kg)` to the same
canonical name, the resolver does pick the local source, but the combined
mapping handed to the engine still contains the global pair — the dict
merge overrides per SOURCE key, not per canonical name. -/
theorem combined_mapping_keeps_global_source_for_same_target :
    get_best_source_for_target "Zware metalen" c4Local c4Global c4Avail =
      (some "Zink (mg/kg)", "Manual")
  ∧ get_combined_mappings c4Global c4Local =
      [("Lood (mg/kg)", "Zware metalen"), ("Zink (mg/kg)", "Zware metalen")]
  ∧ ("Lood (mg/kg)", "Zware metalen") ∈ get_combined_mappings c4Global c4Local := by
  refine ⟨?_, ?_, ?_⟩ <;> decide

theorem find?_filter_of_imp {α : Type} (l : List α) (p f : α → Bool)
    (h : ∀ x, p x = true → f x = true) : (l.filter f).find? p = l.find? p := by
  induction l with
  | nil => rfl
  | cons x t ih =>
    by_cases hp : p x = true
    · rw [List.filter_cons, if_pos (h x hp), List.find?_cons_of_pos _ hp,
        List.find?_cons_of_pos _ hp]
    · cases hfx : f x
      · rw [List.filter_cons, hfx]
        simp only [Bool.false_eq_true, if_neg, ite_false]
        rw [ih, List.find?_cons_of_neg _ hp]
      · rw [List.filter_cons, hfx]
        simp only [if_pos]
        rw [List.find?_cons_of_neg _ hp, List.find?_cons_of_neg _ hp, ih]

/-- C4 (amended): within one user+report context the RESOLVER always
prefers a local mapping for a canonical name over any global one; the
COMBINED mapping `{**global, **local}` overrides per SOURCE parameter key —
a local binding for a source key always wins there, but a global mapping to
the same canonical name through a DIFFERENT source survives (see the
counterexample). -/
theorem local_wins_in_resolver_and_per_source_key_in_combined
    (g l : List (String × String)) (avail : List String) (name : String) :
    (∀ p, l.find? (fun q => q.2 == name) = some p →
       get_best_source_for_target name l g avail = (some p.1, "Manual"))
  ∧ (∀ k v, lookupKey l k = some v →
       lookupKey (get_combined_mappings g l) k = some v) := by
  constructor
  · intro p hp
    unfold get_best_source_for_target
    rw [hp]
  · intro k v hv
    obtain ⟨q, hq, hq2⟩ := Option.map_eq_some'.mp hv
    unfold lookupKey get_combined_mappings
    rw [List.find?_append, List.find?_map]
    rw [show ((fun p : String × String => p.1 == k) ∘ (fun p : String × String =>
          match l.find? (fun q => q.1 == p.1) with
          | some q => (p.1, q.2)
          | none => p)) = (fun x : String × String => x.1 == k) from funext (by
        intro x
        cases hfx : l.find? (fun q => q.1 == x.1) <;> simp [hfx])]
    cases hgf : g.find? (fun x => x.1 == k) with
    | some pg =>
      have hpg : pg.1 = k := by simpa using List.find?_some hgf
      have : l.find? (fun q => q.1 == pg.1) = some q := by rw [hpg, hq]
      simp only [Option.map_some', this, Option.or_some, Option.map_some]
      rw [hq2]
    | none =>
      have hgnone : ∀ x ∈ g, ¬(x.1 == k) = true := List.find?_eq_none.mp hgf
      simp only [Option.map_none', Option.none_or]
      rw [find?_filter_of_imp _ _ _ (by
        intro x hx
        have hxk : x.1 = k := by simpa using hx
        simp only [Bool.not_eq_true']
        rw [List.any_eq_false]
        intro p hp
        rw [hxk]
        exact hgnone p hp), hq]
      simp [hq2]

/-- C4 witness: the amended theorem applied to the `c4` mapping stores. -/
theorem local_wins_in_resolver_and_per_source_key_in_combined_witness :
    c4Local.find? (fun q => q.2 == "Zware metalen") = some ("Zink (mg/kg)", "Zware metalen")
  ∧ lookupKey c4Local "Zink (mg/kg)" = some "Zware metalen"
  ∧ get_best_source_for_target "Zware metalen" c4Local c4Global c4Avail =
      (some "Zink (mg/kg)", "Manual")
  ∧ lookupKey (get_combined_mappings c4Global c4Local) "Zink (mg/kg)" =
      some "Zware metalen" :=
  ⟨by decide, by decide,
    (local_wins_in_resolver_and_per_source_key_in_combined c4Global c4Local c4Avail
      "Zware metalen").1 ("Zink (mg/kg)", "Zware metalen") (by decide),
    (local_wins_in_resolver_and_per_source_key_in_combined c4Global c4Local c4Avail
      "Zware metalen").2 "Zink (mg/kg)" "Zware metalen" (by decide)⟩

end CBC

namespace CBC

/-- C5 counterexample: the global mapping `Zuurgraad (pH) → pH-waarde` has
its source absent from the sample, and the resolver duly returns no
mapping; but the same mapping IS kept in the combined dict handed to
`run_cbc`, where its target name collides with the sample's real
`pH-waarde` column: the collision drop removes that column, so the score
for target 1 flips from 1 (without the mapping) to 0 (with it) — the
mapping does affect the evaluation. -/
theorem absent_global_source_still_alters_evaluation :
    get_best_source_for_target "pH-waarde" [] c5Global c5Avail = (none, "None")
  ∧ get_combined_mappings c5Global [] = c5Global
  ∧ applyMappings c5Global c5Cols = [("SampleID", Cell.num 1), ("DateProcessed", Cell.na)]
  ∧ targetScore (engineFold c5DB (applyMappings c5Global c5Cols)) 1 = 0
  ∧ targetScore (engineFold c5DB c5Cols) 1 = 1 := by
  have happ : applyMappings c5Global c5Cols =
      [("SampleID", Cell.num 1), ("DateProcessed", Cell.na)] := by
    simp [applyMappings, c5Global, c5Cols]
  refine ⟨by decide, by decide, happ, ?_, ?_⟩
  · rw [happ, targetScore, engineFold_maxes]
    have hs : buildSample [(⟨1, "pH-waarde"⟩ : Eigenschap)]
        [("SampleID", Cell.num 1), ("DateProcessed", Cell.na)] 1 = -1 := by
      simp [buildSample, colValue]
    have happl : applicableB (buildSample [(⟨1, "pH-waarde"⟩ : Eigenschap)]
        [("SampleID", Cell.num 1), ("DateProcessed", Cell.na)]) 1
        (⟨1, 1, 1, some 6, some 7⟩ : Rule) = false := by
      simp [applicableB, hs]
    rw [show claimDenominator (buildSample c5DB.eigenschap
          [("SampleID", Cell.num 1), ("DateProcessed", Cell.na)]) c5DB.heeft 1 = 0 by
      simp [claimDenominator, c5DB, weightSum, happl]]
    norm_num
  · have hs : buildSample [(⟨1, "pH-waarde"⟩ : Eigenschap)] c5Cols 1 = 13 / 2 := by
      simp [buildSample, c5Cols, colValue, coerceCell]
    have hne : (13 : ℚ) / 2 ≠ -1 := by norm_num
    have h₆ : (6 : ℚ) ≤ 13 / 2 := by norm_num
    have h₇ : (13 : ℚ) / 2 ≤ 7 := by norm_num
    have happl : applicableB (buildSample [(⟨1, "pH-waarde"⟩ : Eigenschap)] c5Cols) 1
        (⟨1, 1, 1, some 6, some 7⟩ : Rule) = true := by
      simp [applicableB, hs, hne]
    have hpass : passesB (buildSample [(⟨1, "pH-waarde"⟩ : Eigenschap)] c5Cols) 1
        (⟨1, 1, 1, some 6, some 7⟩ : Rule) = true := by
      simp [passesB, happl, boundsOk, hs, h₆, h₇]
    rw [targetScore, engineFold_maxes, engineFold_scores]
    rw [show claimDenominator (buildSample c5DB.eigenschap c5Cols) c5DB.heeft 1 = 1 by
      simp [claimDenominator, c5DB, weightSum, happl]]
    rw [show claimNumerator (buildSample c5DB.eigenschap c5Cols) c5DB.heeft 1 = 1 by
      simp [claimNumerator, c5DB, weightSum, hpass]]
    norm_num

/-- C5 (amended): a global mapping whose source parameter is absent from
the sample's extracted labels yields no resolution (the resolver returns
`(none, "None")`); it is however still part of the combined mapping passed
to the engine, where renaming an absent source column is a no-op ONLY when
its canonical target name does not collide with an existing column — with
such a collision the existing column is dropped (see the counterexample). -/
theorem absent_global_source_resolves_to_none (l g : List (String × String))
    (avail : List String) (name : String)
    (hloc : l.find? (fun p => p.2 == name) = none)
    (habs : ∀ p ∈ g, p.2 = name → ¬ p.1 ∈ avail) :
    get_best_source_for_target name l g avail = (none, "None")
  ∧ (∀ (maps : List (String × String)) (cols : Row),
      (∀ m ∈ maps, ∀ c ∈ cols, c.1 ≠ m.1 ∧ c.1 ≠ m.2) →
      applyMappings maps cols = cols) := by
  constructor
  · unfold get_best_source_for_target
    rw [hloc]
    have hc : ((g.filter (fun p => p.2 == name)).map (fun p => p.1)).filter
        (fun c => avail.any (fun a => a == c)) = [] := by
      apply List.filter_eq_nil_iff.mpr
      intro c hcmem
      obtain ⟨p, hp, rfl⟩ := List.mem_map.mp hcmem
      obtain ⟨hpg, hpn⟩ := List.mem_filter.mp hp
      have hnotin : ¬ p.1 ∈ avail := habs p hpg (by simpa using hpn)
      simp only [Bool.not_eq_true]
      rw [List.any_eq_false]
      intro a ha
      simp only [beq_iff_eq]
      intro haeq
      exact hnotin (haeq ▸ ha)
    simp only [hc]
  · intro maps cols hmc
    unfold applyMappings
    by_cases hnil : maps = []
    · simp [hnil]
    · rw [if_neg hnil]
      have hfilter : cols.filter
          (fun c => !((maps.map (fun m => m.2)).any (fun t => t == c.1))) = cols := by
        apply List.filter_eq_self.mpr
        intro c hcc
        simp only [Bool.not_eq_true']
        rw [List.any_eq_false]
        intro t ht
        obtain ⟨m, hm, rfl⟩ := List.mem_map.mp ht
        simp only [beq_iff_eq]
        exact fun he => (hmc m hm c hcc).2 he.symm
      simp only [hfilter]
      have hmap : ∀ c ∈ cols, (match maps.find? (fun m => m.1 == c.1) with
          | some m => (m.2, c.2)
          | none => c) = c := by
        intro c hcc
        rw [List.find?_eq_none.mpr (by
          intro m hm
          simp only [beq_iff_eq]
          exact fun he => (hmc m hm c hcc).1 he.symm)]
      calc cols.map (fun c => match maps.find? (fun m => m.1 == c.1) with
              | some m => (m.2, c.2)
              | none => c)
          = cols.map id := List.map_congr_left hmap
        _ = cols := List.map_id cols

/-- C5 witness: the amended theorem applied to the `c5` stores (no local
mapping, the single global source absent from the sample labels). -/
theorem absent_global_source_resolves_to_none_witness :
    ([] : List (String × String)).find? (fun p => p.2 == "pH-waarde") = none
  ∧ (∀ p ∈ c5Global, p.2 = "pH-waarde" → ¬ p.1 ∈ c5Avail)
  ∧ (get_best_source_for_target "pH-waarde" [] c5Global c5Avail = (none, "None")
     ∧ (∀ (maps : List (String × String)) (cols : Row),
         (∀ m ∈ maps, ∀ c ∈ cols, c.1 ≠ m.1 ∧ c.1 ≠ m.2) →
         applyMappings maps cols = cols)) :=
  ⟨rfl, by decide,
    absent_global_source_resolves_to_none [] c5Global c5Avail "pH-waarde" rfl (by decide)⟩

/-- C6 (bug exhibit): with the mapping `Zuurgraad (pH) → pH-waarde`, the
pre-existing `pH-waarde` column of `c6Cols` holds the real value 3, not a
placeholder, yet the collision check drops it unconditionally: after
preprocessing the value 3 is gone (the renamed source value 6.5 replaced
it), contradicting both the spec and the code's own comment, which promise
that only placeholder columns are dropped. -/
theorem collision_drop_discards_real_data :
    ("pH-waarde", Cell.num 3) ∈ c6Cols
  ∧ colValue c6Cols "pH-waarde" = 3
  ∧ applyMappings c6Maps c6Cols = [("SampleID", Cell.num 1), ("pH-waarde", Cell.num (13/2))]
  ∧ colValue (applyMappings c6Maps c6Cols) "pH-waarde" = 13 / 2
  ∧ (∀ c ∈ applyMappings c6Maps c6Cols, c.2 ≠ Cell.num 3) := by
  have happ : applyMappings c6Maps c6Cols =
      [("SampleID", Cell.num 1), ("pH-waarde", Cell.num (13/2))] := by
    simp [applyMappings, c6Maps, c6Cols]
  refine ⟨by simp [c6Cols], ?_, happ, ?_, ?_⟩
  · simp [c6Cols, colValue, coerceCell]
  · rw [happ]
    simp [colValue, coerceCell]
  · rw [happ]
    intro c hc
    have h3 : Cell.num (13/2) ≠ Cell.num 3 := fun he => by
      have hq := Cell.num.inj he
      norm_num at hq
    have h1 : Cell.num 1 ≠ Cell.num 3 := fun he => by
      have hq := Cell.num.inj he
      norm_num at hq
    simp only [List.mem_cons, List.not_mem_nil, or_false] at hc
    rcases hc with rfl | rfl
    · exact h1
    · exact h3

end CBC

namespace CBC

/-- C8 counterexample: `clean_value_string` removes EVERY `<`/`>`, not only
leading ones: `"1<2"` cleans to `"12"` and coerces to the number 12, while
stripping only leading characters, as the claim words it, would leave
`"1<2"` intact and coerce it to missing. -/
theorem cleaning_strips_inner_angle_brackets :
    clean_value_string "1<2" = "12"
  ∧ coerceStoredValue (some "1<2") = some 12
  ∧ clean_value_string_leading "1<2" = "1<2"
  ∧ parseDecimal (clean_value_string_leading "1<2") = none := by
  refine ⟨by decide, ?_, by decide, by decide⟩
  have h1 : coerceStoredValue (some "1<2") = some ((digitsVal ['1', '2'] : ℕ) : ℚ) := rfl
  have h2 : ((digitsVal ['1', '2'] : ℕ) : ℚ) = 12 := by
    have e1 : '1'.toNat - 48 = 1 := by decide
    have e2 : '2'.toNat - 48 = 2 := by decide
    norm_num [digitsVal, e1, e2]
  rw [h1, h2]

/-- C8 (amended): `clean_value_string` removes every `<` and `>` wherever
they occur and turns every comma into a period, so no cleaned value
contains any of those characters; `"7,1"` coerces to 7.1 and `"<0.1"`
to 0.1, and a string that is still non-numeric after cleaning (such as
`"abc"`) coerces to missing — the pipeline is total, so no exception. -/
theorem clean_value_string_spec (s : String) :
    (clean_value_string s).data.all
      (fun c => !(c == '<') && !(c == '>') && !(c == ',')) = true
  ∧ coerceStoredValue (some "7,1") = some (71 / 10)
  ∧ coerceStoredValue (some "<0.1") = some (1 / 10)
  ∧ coerceStoredValue (some "abc") = none := by
  refine ⟨?_, ?_, ?_, by decide⟩
  · rw [List.all_eq_true]
    intro c hc
    have hc' : c ∈ cleanChars (trimChars s.data) := hc
    obtain ⟨c', hc'', rfl⟩ := List.mem_map.mp hc'
    obtain ⟨_, hpred⟩ := List.mem_filter.mp hc''
    by_cases hcomma : c' = ','
    · subst hcomma
      simp
    · simp only [Bool.and_eq_true, Bool.not_eq_true'] at hpred ⊢
      refine ⟨⟨?_, ?_⟩, ?_⟩ <;> simp [hcomma, hpred.1, hpred.2]
  · have h1 : coerceStoredValue (some "7,1") =
        some ((digitsVal ['7'] : ℚ) + (digitsVal ['1'] : ℚ) / (10 : ℚ) ^ (1 : ℕ)) := rfl
    have h2 : (digitsVal ['7'] : ℚ) + (digitsVal ['1'] : ℚ) / (10 : ℚ) ^ (1 : ℕ) = 71 / 10 := by
      have e1 : '7'.toNat - 48 = 7 := by decide
      have e2 : '1'.toNat - 48 = 1 := by decide
      norm_num [digitsVal, e1, e2]
    rw [h1, h2]
  · have h1 : coerceStoredValue (some "<0.1") =
        some ((digitsVal ['0'] : ℚ) + (digitsVal ['1'] : ℚ) / (10 : ℚ) ^ (1 : ℕ)) := rfl
    have h2 : (digitsVal ['0'] : ℚ) + (digitsVal ['1'] : ℚ) / (10 : ℚ) ^ (1 : ℕ) = 1 / 10 := by
      have e1 : '0'.toNat - 48 = 0 := by decide
      have e2 : '1'.toNat - 48 = 1 := by decide
      norm_num [digitsVal, e1, e2]
    rw [h1, h2]

theorem pivotValue_cons (r : LongRow) (rs : List LongRow) (key : String) :
    pivotValue (r :: rs) key =
      if makeKey r = key then
        match coerceStoredValue r.value with
        | some v => some v
        | none => pivotValue rs key
      else pivotValue rs key := by
  unfold pivotValue
  simp only [List.map_cons, List.filter_cons]
  by_cases hk : makeKey r = key
  · simp only [hk, beq_self_eq_true, if_pos, List.findSome?_cons]
    cases coerceStoredValue r.value <;> simp
  · have hk' : ((makeKey r, coerceStoredValue r.value).1 == key) = false := by
      simpa using hk
    simp [hk', hk]

/-- C9 counterexample: the two long rows of `c9Rows` collide on the key
`Lood (mg/kg)`; the first one's value `"abc"` coerces to missing, so the
pivot with `aggfunc='first'` (first NON-null) reconstructs the SECOND
row's value 5 — not the first row's value as the claim states. -/
theorem pivot_keeps_later_value_when_first_is_null :
    coerceStoredValue (some "abc") = none
  ∧ coerceStoredValue (some "5") = some 5
  ∧ (c9Rows.map (fun r => makeKey r)) = ["Lood (mg/kg)", "Lood (mg/kg)"]
  ∧ pivotValue c9Rows "Lood (mg/kg)" = some 5 := by
  have h5 : coerceStoredValue (some "5") = some 5 := by
    have h1 : coerceStoredValue (some "5") = some ((digitsVal ['5'] : ℕ) : ℚ) := rfl
    have h2 : ((digitsVal ['5'] : ℕ) : ℚ) = 5 := by
      have e1 : '5'.toNat - 48 = 5 := by decide
      norm_num [digitsVal, e1]
    rw [h1, h2]
  have hkey : makeKey (⟨"Lood", some "mg/kg", some "abc"⟩ : LongRow) = "Lood (mg/kg)" := by decide
  have hkey2 : makeKey (⟨"Lood", some "mg/kg", some "5"⟩ : LongRow) = "Lood (mg/kg)" := by decide
  refine ⟨by decide, h5, by decide, ?_⟩
  rw [show c9Rows = ⟨"Lood", some "mg/kg", some "abc"⟩ ::
        [(⟨"Lood", some "mg/kg", some "5"⟩ : LongRow)] from rfl,
    pivotValue_cons, if_pos hkey,
    show coerceStoredValue (some ("abc" : String)) = none from by decide,
    pivotValue_cons, if_pos hkey2, h5]

/-- C9 (amended): among long rows colliding on one column key, wide-row
reconstruction keeps the FIRST value that coerces to a number; colliding
rows before it (with null-coercing values) and all rows after it are
dropped, and when every colliding value coerces to null the column stays
missing. -/
theorem pivot_keeps_first_non_null_collision (pre post : List LongRow) (r : LongRow)
    (key : String) (v : ℚ)
    (hk : makeKey r = key) (hv : coerceStoredValue r.value = some v)
    (hpre : ∀ r' ∈ pre, makeKey r' = key → coerceStoredValue r'.value = none) :
    pivotValue (pre ++ r :: post) key = some v
  ∧ (∀ (rows : List LongRow),
      (∀ r' ∈ rows, makeKey r' = key → coerceStoredValue r'.value = none) →
      pivotValue rows key = none) := by
  have part1 : ∀ (pre' : List LongRow),
      (∀ r' ∈ pre', makeKey r' = key → coerceStoredValue r'.value = none) →
      pivotValue (pre' ++ r :: post) key = some v := by
    intro pre'
    induction pre' with
    | nil =>
      intro _
      simp only [List.nil_append]
      rw [pivotValue_cons, if_pos hk, hv]
    | cons a t ih =>
      intro hp
      rw [List.cons_append, pivotValue_cons]
      by_cases ha : makeKey a = key
      · rw [if_pos ha, hp a (List.mem_cons_self a t) ha]
        exact ih (fun r' hr' h' => hp r' (List.mem_cons_of_mem a hr') h')
      · rw [if_neg ha]
        exact ih (fun r' hr' h' => hp r' (List.mem_cons_of_mem a hr') h')
  refine ⟨part1 pre hpre, ?_⟩
  intro rows hall
  induction rows with
    | nil => rfl
    | cons a t ih =>
      rw [pivotValue_cons]
      by_cases ha : makeKey a = key
      · rw [if_pos ha, hall a (List.mem_cons_self a t) ha]
        exact ih (fun r' hr' h' => hall r' (List.mem_cons_of_mem a hr') h')
      · rw [if_neg ha]
        exact ih (fun r' hr' h' => hall r' (List.mem_cons_of_mem a hr') h')

end CBC

namespace CBC

/-- C9 witness: the amended theorem applied to the collision
`w9Pre ++ w9Mid :: w9Post` on the key `pH-waarde`: the NULL first row is
skipped and the value 7.5 of `w9Mid` is kept. -/
theorem pivot_keeps_first_non_null_collision_witness :
    makeKey w9Mid = "pH-waarde"
  ∧ coerceStoredValue w9Mid.value = some (15 / 2)
  ∧ (∀ r' ∈ w9Pre, makeKey r' = "pH-waarde" → coerceStoredValue r'.value = none)
  ∧ (pivotValue (w9Pre ++ w9Mid :: w9Post) "pH-waarde" = some (15 / 2)
     ∧ (∀ (rows : List LongRow),
         (∀ r' ∈ rows, makeKey r' = "pH-waarde" → coerceStoredValue r'.value = none) →
         pivotValue rows "pH-waarde" = none)) := by
  have hk : makeKey w9Mid = "pH-waarde" := by decide
  have hv : coerceStoredValue w9Mid.value = some (15 / 2) := by
    have h1 : coerceStoredValue w9Mid.value =
        some ((digitsVal ['7'] : ℚ) + (digitsVal ['5'] : ℚ) / (10 : ℚ) ^ (1 : ℕ)) := rfl
    have e1 : '7'.toNat - 48 = 7 := by decide
    have e2 : '5'.toNat - 48 = 5 := by decide
    rw [h1]
    norm_num [digitsVal, e1, e2]
  have hpre : ∀ r' ∈ w9Pre, makeKey r' = "pH-waarde" → coerceStoredValue r'.value = none := by
    intro r' hr' _
    simp only [w9Pre, List.mem_singleton] at hr'
    subst hr'
    rfl
  exact ⟨hk, hv, hpre,
    pivot_keeps_first_non_null_collision w9Pre w9Post w9Mid "pH-waarde" (15 / 2) hk hv hpre⟩

end CBC
